import Mathlib

/-!
Verification model of the traffic-manager session core
(`cmd/traffic/cmd/manager/state/session.go` of telepresence).

The Go code is shallowly embedded: the per-session mutable state becomes an
explicit `sessionState` record that operations thread through; Go's unbuffered
channels and `select` statements become lists of the outcomes whose select
branch is ready (Go picks nondeterministically among ready branches, and a
`select` with no ready branch blocks); closing a channel twice, or sending on
a closed channel, is a Go run-time panic and is modelled by explicit
`panicked` results.  Contexts are modelled by the observable events the code
reacts to: the session done-signal (`doneFired`), the dial-timeout expiry and
the caller's request-context cancellation.
-/

set_option autoImplicit false

namespace Telepresence

/-- `tunnel.ConnID`: opaque byte-string identifying one connection. -/
abbrev ConnID := String

/-- Session identifier (opaque string). -/
abbrev SessionID := String

/-- The part of a `tunnel.Stream` that `session.go` reads: `ID()`,
`SessionID()`, `RoundtripLatency()` and `DialTimeout()` (durations in
nanoseconds, modelled as `Nat`). -/
structure Stream where
  id : ConnID
  sessionID : SessionID
  roundtripLatency : Nat
  dialTimeout : Nat
  deriving DecidableEq

/-- A `tunnel.BidiPipe` as constructed by `tunnel.NewBidiPipe(abp.stream,
stream, name, counter, probes)`: the value is determined by the two half
streams that it fuses and its name.  The counter and probes do not affect
identity and are omitted. -/
structure BidiPipe where
  streamA : Stream
  streamB : Stream
  name : String
  deriving DecidableEq

/-- The pipe name built at session.go line 135:
`fmt.Sprintf("%s: session %s -> %s", id, abp.stream.SessionID(), stream.SessionID())`. -/
def mkPipeName (id : ConnID) (a b : SessionID) : String :=
  id ++ ": session " ++ a ++ " -> " ++ b

/-- `tunnel.NewBidiPipe` (constructor; internals of pkg/tunnel are outside
the brokerage core, only the identity of the returned object matters here). -/
def NewBidiPipe (a b : Stream) (name : String) : BidiPipe :=
  ⟨a, b, name⟩

/-- `awaitingBidiPipe` (session.go lines 33-37): the registered half stream
and the identity of its single-shot endpoint channel `bidiPipeCh`.  The
stored context only carries tracing information and is omitted. -/
structure awaitingBidiPipe where
  stream : Stream
  bidiPipeCh : Nat
  deriving DecidableEq

/-- Go map lookup `m[k]` on an association list with unique keys. -/
def mapLookup (m : List (ConnID × awaitingBidiPipe)) (k : ConnID) :
    Option awaitingBidiPipe :=
  match m with
  | [] => none
  | (k1, v) :: t => if k1 = k then some v else mapLookup t k

/-- Go map assignment `m[k] = v`: replaces the entry when the key is
present, otherwise appends it. -/
def mapInsert (m : List (ConnID × awaitingBidiPipe)) (k : ConnID)
    (v : awaitingBidiPipe) : List (ConnID × awaitingBidiPipe) :=
  match m with
  | [] => [(k, v)]
  | (k1, v1) :: t => if k1 = k then (k, v) :: t else (k1, v1) :: mapInsert t k v

/-- Go `delete(m, k)`: removes the entry for `k` when present. -/
def mapDelete (m : List (ConnID × awaitingBidiPipe)) (k : ConnID) :
    List (ConnID × awaitingBidiPipe) :=
  match m with
  | [] => []
  | (k1, v1) :: t => if k1 = k then t else (k1, v1) :: mapDelete t k

theorem mapLookup_mapInsert_self (m : List (ConnID × awaitingBidiPipe))
    (k : ConnID) (v : awaitingBidiPipe) :
    mapLookup (mapInsert m k v) k = some v := by
  induction m with
  | nil => simp [mapInsert, mapLookup]
  | cons h t ih =>
    obtain ⟨k1, v1⟩ := h
    by_cases hk : k1 = k
    · simp [mapInsert, hk, mapLookup]
    · simp [mapInsert, hk, mapLookup, ih]

/-- `sessionState` (session.go lines 39-46).  `doneFired` models whether the
context-done channel returned by `Done()` is closed (i.e. `cancel` has run);
`dialsClosed` models whether `close(ss.dials)` has been executed; the
waiting map keeps Go's nil-map / allocated-map distinction
(`none` = nil map). -/
structure sessionState where
  doneFired : Bool
  dialsClosed : Bool
  lastMarked : Nat
  awaitingBidiPipeMap : Option (List (ConnID × awaitingBidiPipe))
  deriving DecidableEq

/-- `newSessionState` (session.go lines 179-187): fresh context (done not
fired), open dials channel, nil waiting map. -/
def newSessionState (now : Nat) : sessionState :=
  { doneFired := false
    dialsClosed := false
    lastMarked := now
    awaitingBidiPipeMap := none }

/-- Lookup in the possibly-nil waiting map (`ss.awaitingBidiPipeMap[id]`;
reading a Go nil map yields the zero value, i.e. not found). -/
def lookupAwaiting (ss : sessionState) (k : ConnID) : Option awaitingBidiPipe :=
  match ss.awaitingBidiPipeMap with
  | none => none
  | some m => mapLookup m k

/-- Deletion from the possibly-nil waiting map (`delete` on a nil map is a
no-op). -/
def deleteAwaiting (ss : sessionState) (k : ConnID) : sessionState :=
  match ss.awaitingBidiPipeMap with
  | none => ss
  | some m => { ss with awaitingBidiPipeMap := some (mapDelete m k) }

/-- The registration step of `EstablishBidiPipe` (session.go lines 55-65):
build the `awaitingBidiPipe` for a fresh channel `ch` and store it under the
stream's id, lazily allocating the map.  There is no presence check: an
existing entry for the same id is overwritten. -/
def establishRegister (ss : sessionState) (stream : Stream) (ch : Nat) :
    sessionState :=
  let abp : awaitingBidiPipe := ⟨stream, ch⟩
  match ss.awaitingBidiPipeMap with
  | none => { ss with awaitingBidiPipeMap := some [(stream.id, abp)] }
  | some m => { ss with awaitingBidiPipeMap := some (mapInsert m stream.id abp) }

theorem lookupAwaiting_establishRegister (ss : sessionState) (stream : Stream)
    (ch : Nat) :
    lookupAwaiting (establishRegister ss stream ch) stream.id
      = some ⟨stream, ch⟩ := by
  unfold establishRegister lookupAwaiting
  cases hm : ss.awaitingBidiPipeMap with
  | none => simp [mapLookup]
  | some m => simp [mapLookup_mapInsert_self]

/-- `AwaitingBidiMapOwnerSessionID` (session.go lines 102-109), in explicit
state-passing form: the method only reads the map under the lock, so the
returned state is the input state. -/
def AwaitingBidiMapOwnerSessionID (ss : sessionState) (stream : Stream) :
    sessionState × SessionID :=
  match lookupAwaiting ss stream.id with
  | some abp => (ss, abp.stream.sessionID)
  | none => (ss, "")

/-- Result of `OnConnect` (session.go lines 114-156). `noPending` is the
`return nil, nil` exit; `errCancelled` is the `codes.Canceled` exit taken
when the session-done branch of the final select fires (the pipe has by then
been constructed and started); `delivered` is the successful hand-off of the
pipe on the waiter's `bidiPipeCh`. -/
inductive OnConnectResult
  | noPending
  | errCancelled (started : BidiPipe)
  | delivered (ch : Nat) (p : BidiPipe)
  deriving DecidableEq

/-- `OnConnect` (session.go lines 114-156): look up and remove the waiting
entry for the incoming stream's id; absent an entry return `(nil, nil)` with
the state untouched; otherwise build and start the BidiPipe and hand it off.
`doneChosen` records which ready branch the final select takes (the done
branch is only ready when the session is cancelled — hypotheses of the
theorems enforce this). -/
def OnConnect (ss : sessionState) (stream : Stream) (doneChosen : Bool) :
    sessionState × OnConnectResult :=
  match lookupAwaiting ss stream.id with
  | none => (ss, .noPending)
  | some abp =>
    let ss1 := deleteAwaiting ss stream.id
    let pipe := NewBidiPipe abp.stream stream
      (mkPipeName stream.id abp.stream.sessionID stream.sessionID)
    if doneChosen then (ss1, .errCancelled pipe)
    else (ss1, .delivered abp.bidiPipeCh pipe)

/-- Outcome of the dial-dispatch select of `EstablishBidiPipe`
(session.go lines 79-84). -/
inductive DispatchOutcome
  | cancelledErr
  | sent
  | panicked
  deriving DecidableEq

/-- Go semantics of the dispatch select (session.go lines 79-84): the
`<-ss.Done()` branch is ready when the session is cancelled and yields the
`codes.Canceled` return; the `ss.dials <- dr` branch is ready when a
`WatchDial` receiver is at the channel (`receiverReady`) — or, after
`Cancel` has closed `ss.dials`, unconditionally, in which case selecting it
is a run-time panic (send on closed channel).  The list collects the
outcomes of the ready branches; Go picks one of them nondeterministically,
and blocks when the list is empty. -/
def dispatchOutcomes (ss : sessionState) (receiverReady : Bool) :
    List DispatchOutcome :=
  (if ss.doneFired then [DispatchOutcome.cancelledErr] else []) ++
    (if ss.dialsClosed then [DispatchOutcome.panicked]
     else if receiverReady then [DispatchOutcome.sent] else [])

/-- Outcome of the wait select of `EstablishBidiPipe`
(session.go lines 92-99). -/
inductive EstablishOutcome
  | deadlineErr
  | cancelledErr
  | endpoint (p : BidiPipe)
  deriving DecidableEq

/-- The rendezvous deadline of `EstablishBidiPipe` (session.go line 90):
`context.WithTimeout(ctx, stream.DialTimeout()+stream.RoundtripLatency())`. -/
def establishDeadline (stream : Stream) : Nat :=
  stream.dialTimeout + stream.roundtripLatency

/-- Go semantics of the wait select (session.go lines 92-99).  The
`<-ctx.Done()` branch — mapped to the `codes.DeadlineExceeded` return — is
ready when the `establishDeadline` window has elapsed (`deadlineReached`)
OR when the caller's request context has been cancelled (`parentCancelled`):
the context built on line 90 derives from the call's context, so its done
channel conflates the two events.  `<-ss.Done()` is ready when the session
is cancelled; `<-bidiPipeCh` is ready when an `OnConnect` is delivering a
pipe on this call's channel (`delivery`). -/
def waitOutcomes (deadlineReached parentCancelled : Bool) (ss : sessionState)
    (delivery : Option BidiPipe) : List EstablishOutcome :=
  (if deadlineReached || parentCancelled then [EstablishOutcome.deadlineErr]
   else []) ++
    (if ss.doneFired then [EstablishOutcome.cancelledErr] else []) ++
      (match delivery with
       | some p => [EstablishOutcome.endpoint p]
       | none => [])

/-- Result of one complete `EstablishBidiPipe` call. -/
inductive EstablishResult
  | ok (p : BidiPipe)
  | errCancelled
  | errDeadline
  | panicked
  deriving DecidableEq

/-- One complete execution of `EstablishBidiPipe` (session.go lines 51-100),
parameterised by the select branches taken (`d` for the dispatch select,
`w` for the wait select; theorems restrict them to ready branches via
`dispatchOutcomes` / `waitOutcomes`).  Returns the session state as mutated
by this function together with the call's result.  Note that no exit path —
in particular no error exit — touches the waiting map: the only deletion in
the file is the one in `OnConnect`. -/
def EstablishBidiPipeRun (ss : sessionState) (stream : Stream) (ch : Nat)
    (d : DispatchOutcome) (w : EstablishOutcome) :
    sessionState × EstablishResult :=
  let ss1 := establishRegister ss stream ch
  match d with
  | .cancelledErr => (ss1, .errCancelled)
  | .panicked => (ss1, .panicked)
  | .sent =>
    match w with
    | .deadlineErr => (ss1, .errDeadline)
    | .cancelledErr => (ss1, .errCancelled)
    | .endpoint p => (ss1, .ok p)

/-- Result of a `Cancel` call: either the resulting state, or a run-time
panic (with the state at the moment of the panic). -/
inductive CancelResult
  | ok (ss : sessionState)
  | panicked (ss : sessionState)
  deriving DecidableEq

/-- `sessionState.Cancel` (session.go lines 158-161): `ss.cancel()` fires
the done-signal (idempotently), then `close(ss.dials)` — which panics when
the channel is already closed.  Nothing else is touched: the waiting map is
not drained. -/
def sessionCancel (ss : sessionState) : CancelResult :=
  let ss1 := { ss with doneFired := true }
  if ss1.dialsClosed then .panicked ss1
  else .ok { ss1 with dialsClosed := true }

/-- `agentSessionState` (session.go lines 207-211): the embedded
`sessionState` plus the DNS request queue (its closed flag) and the pending
DNS response channels, keyed by request id. -/
structure agentSessionState where
  session : sessionState
  dnsRequestsClosed : Bool
  dnsResponses : List String
  deriving DecidableEq

/-- `newAgentSessionState` (session.go lines 213-219). -/
def newAgentSessionState (now : Nat) : agentSessionState :=
  { session := newSessionState now
    dnsRequestsClosed := false
    dnsResponses := [] }

/-- Result of `agentSessionState.Cancel`. -/
inductive AgentCancelResult
  | ok (ag : agentSessionState)
  | panicked
  deriving DecidableEq

/-- `agentSessionState.Cancel` (session.go lines 221-228):
`close(ss.dnsRequests)` — a panic when already closed — then each pending
DNS response channel is deleted from the map and closed, then the embedded
`sessionState.Cancel` runs. -/
def agentSessionCancel (ag : agentSessionState) : AgentCancelResult :=
  if ag.dnsRequestsClosed then .panicked
  else
    let ag1 : agentSessionState :=
      { ag with dnsRequestsClosed := true, dnsResponses := [] }
    match sessionCancel ag1.session with
    | .ok s => .ok { ag1 with session := s }
    | .panicked _ => .panicked

/-- Observable close/fire events of `agentSessionState.Cancel`, in program
order. -/
inductive CancelEvent
  | closeDnsRequests
  | closeDnsResponse (k : String)
  | fireDone
  | closeDials
  deriving DecidableEq

/-- The event trace of a (first) `agentSessionState.Cancel`
(session.go lines 221-228): the request queue is closed first
(line 222), then each pending response channel (lines 223-226), then the
embedded `sessionState.Cancel` fires the done-signal and closes the dials
channel (line 227). -/
def agentCancelTrace (ag : agentSessionState) : List CancelEvent :=
  CancelEvent.closeDnsRequests ::
    (ag.dnsResponses.map CancelEvent.closeDnsResponse ++
      [CancelEvent.fireDone, CancelEvent.closeDials])

/-! Helper lemmas about the association-list model of the Go waiting map. -/

theorem mapLookup_mem {m : List (ConnID × awaitingBidiPipe)} {k : ConnID}
    {v : awaitingBidiPipe} (h : mapLookup m k = some v) : (k, v) ∈ m := by
  induction m with
  | nil => simp [mapLookup] at h
  | cons hd t ih =>
    obtain ⟨k1, v1⟩ := hd
    by_cases hk : k1 = k
    · subst hk
      simp [mapLookup] at h
      subst h
      exact List.mem_cons_self _ _
    · simp [mapLookup, hk] at h
      exact List.mem_cons_of_mem _ (ih h)

theorem mem_mapInsert {m : List (ConnID × awaitingBidiPipe)} {k : ConnID}
    {v e : _} (h : e ∈ mapInsert m k v) : e = (k, v) ∨ e ∈ m := by
  induction m with
  | nil => simp [mapInsert] at h; exact Or.inl h
  | cons hd t ih =>
    obtain ⟨k1, v1⟩ := hd
    by_cases hk : k1 = k
    · simp [mapInsert, hk] at h
      rcases h with h | h
      · exact Or.inl h
      · exact Or.inr (List.mem_cons_of_mem _ h)
    · simp [mapInsert, hk] at h
      rcases h with h | h
      · exact Or.inr (by simp [h])
      · rcases ih h with h2 | h2
        · exact Or.inl h2
        · exact Or.inr (List.mem_cons_of_mem _ h2)

theorem mapDelete_sublist (m : List (ConnID × awaitingBidiPipe)) (k : ConnID) :
    List.Sublist (mapDelete m k) m := by
  induction m with
  | nil => simp [mapDelete]
  | cons hd t ih =>
    obtain ⟨k1, v1⟩ := hd
    by_cases hk : k1 = k
    · simp only [mapDelete, if_pos hk]
      exact List.sublist_cons_self _ _
    · simp only [mapDelete, if_neg hk]
      exact List.Sublist.cons₂ (k1, v1) ih

theorem mem_mapDelete {m : List (ConnID × awaitingBidiPipe)} {k : ConnID}
    {e : _} (h : e ∈ mapDelete m k) : e ∈ m :=
  (mapDelete_sublist m k).mem h

theorem mapDelete_mem_ne_key {m : List (ConnID × awaitingBidiPipe)}
    {k : ConnID} (hk : (m.map Prod.fst).Nodup) :
    ∀ e ∈ mapDelete m k, e.1 ≠ k := by
  induction m with
  | nil => simp [mapDelete]
  | cons hd t ih =>
    obtain ⟨k1, v1⟩ := hd
    simp only [List.map_cons, List.nodup_cons] at hk
    by_cases hkk : k1 = k
    · subst hkk
      intro e he
      simp only [mapDelete, if_pos rfl] at he
      intro hek
      exact hk.1 (hek ▸ (List.mem_map.mpr ⟨e, he, rfl⟩))
    · intro e he
      simp only [mapDelete, if_neg hkk] at he
      rcases List.mem_cons.mp he with h | h
      · subst h; exact hkk
      · exact ih hk.2 e h

theorem nodup_map_mapInsert {α : Type} (g : ConnID × awaitingBidiPipe → α)
    {m : List (ConnID × awaitingBidiPipe)} {k : ConnID} {v : awaitingBidiPipe}
    (hm : (m.map g).Nodup) (hv : ∀ e ∈ m, g e ≠ g (k, v)) :
    ((mapInsert m k v).map g).Nodup := by
  induction m with
  | nil => simp [mapInsert]
  | cons hd t ih =>
    obtain ⟨k1, v1⟩ := hd
    simp only [List.map_cons, List.nodup_cons] at hm
    by_cases hk : k1 = k
    · simp only [mapInsert, if_pos hk, List.map_cons, List.nodup_cons]
      refine ⟨?_, hm.2⟩
      intro hmem
      rcases List.mem_map.mp hmem with ⟨e, he, hge⟩
      exact hv e (List.mem_cons_of_mem _ he) hge
    · simp only [mapInsert, if_neg hk, List.map_cons, List.nodup_cons]
      refine ⟨?_, ih hm.2 (fun e he => hv e (List.mem_cons_of_mem _ he))⟩
      intro hmem
      rcases List.mem_map.mp hmem with ⟨e, he, hge⟩
      rcases mem_mapInsert he with h | h
      · subst h
        exact hv (k1, v1) (List.mem_cons_self _ _) hge.symm
      · exact hm.1 (List.mem_map.mpr ⟨e, h, hge⟩)

theorem keysNodup_mapInsert {m : List (ConnID × awaitingBidiPipe)}
    {k : ConnID} {v : awaitingBidiPipe} (hm : (m.map Prod.fst).Nodup) :
    ((mapInsert m k v).map Prod.fst).Nodup := by
  induction m with
  | nil => simp [mapInsert]
  | cons hd t ih =>
    obtain ⟨k1, v1⟩ := hd
    simp only [List.map_cons, List.nodup_cons] at hm
    by_cases hk : k1 = k
    · simp only [mapInsert, if_pos hk, List.map_cons, List.nodup_cons]
      refine ⟨?_, hm.2⟩
      intro hmem
      exact hm.1 (by rw [hk]; exact hmem)
    · simp only [mapInsert, if_neg hk, List.map_cons, List.nodup_cons]
      refine ⟨?_, ih hm.2⟩
      intro hmem
      rcases List.mem_map.mp hmem with ⟨e, he, hge⟩
      rcases mem_mapInsert he with h | h
      · subst h; exact hk hge.symm
      · exact hm.1 (List.mem_map.mpr ⟨e, h, hge⟩)

/-- The entry list of the possibly-nil waiting map. -/
def entries (ss : sessionState) : List (ConnID × awaitingBidiPipe) :=
  ss.awaitingBidiPipeMap.getD []

theorem lookupAwaiting_eq (ss : sessionState) (k : ConnID) :
    lookupAwaiting ss k = mapLookup (entries ss) k := by
  cases hm : ss.awaitingBidiPipeMap with
  | none => simp [lookupAwaiting, entries, hm, mapLookup]
  | some m => simp [lookupAwaiting, entries, hm]

theorem entries_establishRegister (ss : sessionState) (stream : Stream)
    (ch : Nat) :
    entries (establishRegister ss stream ch)
      = mapInsert (entries ss) stream.id ⟨stream, ch⟩ := by
  cases hm : ss.awaitingBidiPipeMap with
  | none => simp [establishRegister, entries, hm, mapInsert]
  | some m => simp [establishRegister, entries, hm]

theorem entries_deleteAwaiting (ss : sessionState) (k : ConnID) :
    entries (deleteAwaiting ss k) = mapDelete (entries ss) k := by
  cases hm : ss.awaitingBidiPipeMap with
  | none => simp [deleteAwaiting, entries, hm, mapDelete]
  | some m => simp [deleteAwaiting, entries, hm]

theorem OnConnect_delivered_inv {ss ss1 : sessionState} {stream : Stream}
    {b : Bool} {ch : Nat} {p : BidiPipe}
    (h : OnConnect ss stream b = (ss1, OnConnectResult.delivered ch p)) :
    ∃ abp, lookupAwaiting ss stream.id = some abp ∧
      ss1 = deleteAwaiting ss stream.id ∧ ch = abp.bidiPipeCh ∧
      p = NewBidiPipe abp.stream stream
        (mkPipeName stream.id abp.stream.sessionID stream.sessionID) := by
  unfold OnConnect at h
  cases hl : lookupAwaiting ss stream.id with
  | none => rw [hl] at h; simp at h
  | some abp =>
    rw [hl] at h
    cases b with
    | true => simp at h
    | false =>
      simp only [if_neg (by simp : ¬(false = true))] at h
      refine ⟨abp, rfl, ?_, ?_, ?_⟩
      · exact (Prod.mk.injEq _ _ _ _ ▸ h).1.symm
      · have := (Prod.mk.injEq _ _ _ _ ▸ h).2
        cases this
        rfl
      · have := (Prod.mk.injEq _ _ _ _ ▸ h).2
        cases this
        rfl

theorem OnConnect_errCancelled_inv {ss ss1 : sessionState} {stream : Stream}
    {b : Bool} {p : BidiPipe}
    (h : OnConnect ss stream b = (ss1, OnConnectResult.errCancelled p)) :
    ss1 = deleteAwaiting ss stream.id := by
  unfold OnConnect at h
  cases hl : lookupAwaiting ss stream.id with
  | none => rw [hl] at h; simp at h
  | some abp =>
    rw [hl] at h
    cases b with
    | true =>
      simp only [if_pos rfl] at h
      exact (Prod.mk.injEq _ _ _ _ ▸ h).1.symm
    | false => simp at h

theorem sessionCancel_ok_inv {ss s1 : sessionState}
    (h : sessionCancel ss = CancelResult.ok s1) :
    ss.dialsClosed = false ∧
      s1 = { ss with doneFired := true, dialsClosed := true } := by
  unfold sessionCancel at h
  by_cases hd : ss.dialsClosed
  · simp [hd] at h
  · simp only [hd, if_neg] at h
    simp at h
    exact ⟨by simp [hd], h.symm⟩

/-- Phase of a running `EstablishBidiPipe` call: before or after the
DialRequest has been handed to the peer's `WatchDial` poll. -/
inductive Phase
  | dispatching
  | waiting
  deriving DecidableEq

/-- One running `EstablishBidiPipe` call: its half stream, the identity of
its `bidiPipeCh` endpoint channel, and its phase. -/
structure EstCall where
  stream : Stream
  ch : Nat
  phase : Phase
  deriving DecidableEq

/-- Global state of one session's brokerage: the session state, the running
`EstablishBidiPipe` calls, the results of the completed ones (keyed by their
endpoint-channel identity), the log of pipes delivered by `OnConnect`, and a
counter supplying fresh channel identities. -/
structure World where
  ss : sessionState
  calls : List EstCall
  finished : List (Nat × EstablishResult)
  connects : List (Stream × Nat × BidiPipe)
  nextCh : Nat
  deriving DecidableEq

/-- The initial world: a freshly opened session, no calls. -/
def World.init : World :=
  { ss := newSessionState 0
    calls := []
    finished := []
    connects := []
    nextCh := 0 }

/-- Interleaved small-step semantics of the brokerage on one session.  Each
constructor is one atomic step of `EstablishBidiPipe` (register under the
lock; one ready branch of the dispatch select; one ready branch of the wait
select), of `OnConnect` (lookup+delete under the lock fused with the channel
hand-off, which is synchronous on the unbuffered `bidiPipeCh`), or of
`Cancel`. -/
inductive Step : World → World → Prop
  | register (w : World) (stream : Stream) :
      Step w { w with
        ss := establishRegister w.ss stream w.nextCh
        calls := ⟨stream, w.nextCh, Phase.dispatching⟩ :: w.calls
        nextCh := w.nextCh + 1 }
  | dispatchSent (w : World) (c : EstCall) (hc : c ∈ w.calls)
      (hp : c.phase = Phase.dispatching)
      (hready : DispatchOutcome.sent ∈ dispatchOutcomes w.ss true) :
      Step w { w with
        calls := ⟨c.stream, c.ch, Phase.waiting⟩ :: w.calls.erase c }
  | dispatchCancelled (w : World) (c : EstCall) (hc : c ∈ w.calls)
      (hp : c.phase = Phase.dispatching)
      (hready : DispatchOutcome.cancelledErr ∈ dispatchOutcomes w.ss false) :
      Step w { w with
        calls := w.calls.erase c
        finished := (c.ch, EstablishResult.errCancelled) :: w.finished }
  | dispatchPanic (w : World) (c : EstCall) (hc : c ∈ w.calls)
      (hp : c.phase = Phase.dispatching)
      (hready : DispatchOutcome.panicked ∈ dispatchOutcomes w.ss false) :
      Step w { w with
        calls := w.calls.erase c
        finished := (c.ch, EstablishResult.panicked) :: w.finished }
  | waitDeadline (w : World) (c : EstCall) (hc : c ∈ w.calls)
      (hp : c.phase = Phase.waiting)
      (hready : EstablishOutcome.deadlineErr ∈ waitOutcomes true false w.ss none) :
      Step w { w with
        calls := w.calls.erase c
        finished := (c.ch, EstablishResult.errDeadline) :: w.finished }
  | waitCancelled (w : World) (c : EstCall) (hc : c ∈ w.calls)
      (hp : c.phase = Phase.waiting)
      (hready : EstablishOutcome.cancelledErr ∈ waitOutcomes false false w.ss none) :
      Step w { w with
        calls := w.calls.erase c
        finished := (c.ch, EstablishResult.errCancelled) :: w.finished }
  | connectDeliver (w : World) (incoming : Stream) (ss1 : sessionState)
      (ch : Nat) (p : BidiPipe) (c : EstCall)
      (h : OnConnect w.ss incoming false = (ss1, OnConnectResult.delivered ch p))
      (hc : c ∈ w.calls) (hch : c.ch = ch) (hp : c.phase = Phase.waiting) :
      Step w { w with
        ss := ss1
        calls := w.calls.erase c
        finished := (ch, EstablishResult.ok p) :: w.finished
        connects := (incoming, ch, p) :: w.connects }
  | connectNoPending (w : World) (incoming : Stream)
      (h : OnConnect w.ss incoming false = (w.ss, OnConnectResult.noPending)) :
      Step w w
  | connectCancelled (w : World) (incoming : Stream) (ss1 : sessionState)
      (p : BidiPipe)
      (h : OnConnect w.ss incoming true = (ss1, OnConnectResult.errCancelled p))
      (hd : w.ss.doneFired = true) :
      Step w { w with ss := ss1 }
  | cancel (w : World) (s1 : sessionState)
      (h : sessionCancel w.ss = CancelResult.ok s1) :
      Step w { w with ss := s1 }

/-- Worlds reachable from a freshly opened session. -/
inductive Reach : World → Prop
  | init : Reach World.init
  | step {w w2 : World} : Reach w → Step w w2 → Reach w2

/-- Reachability invariant of the brokerage.  `mapWF`: every waiting-map
entry is keyed by its stream's ConnID and carries an already-issued channel.
The Nodup fields state that channel identities are unique across the map and
across the `OnConnect` delivery log, `connNotInMap` that a delivered
channel's slot is no longer in the map, and `okConn` that every completed
`EstablishBidiPipe` that returned an endpoint got it from an `OnConnect`
delivery of a pipe fusing the registered half stream with an incoming
stream of the same ConnID. -/
structure Inv (w : World) : Prop where
  mapWF : ∀ e ∈ entries w.ss, e.2.stream.id = e.1 ∧ e.2.bidiPipeCh < w.nextCh
  mapKeysNodup : ((entries w.ss).map Prod.fst).Nodup
  mapChsNodup : ((entries w.ss).map (fun e => e.2.bidiPipeCh)).Nodup
  callsLt : ∀ c ∈ w.calls, c.ch < w.nextCh
  finLt : ∀ f ∈ w.finished, f.1 < w.nextCh
  connLt : ∀ x ∈ w.connects, x.2.1 < w.nextCh
  connNotInMap : ∀ x ∈ w.connects, ∀ e ∈ entries w.ss, e.2.bidiPipeCh ≠ x.2.1
  connChsNodup : (w.connects.map (fun x => x.2.1)).Nodup
  okConn : ∀ ch p, (ch, EstablishResult.ok p) ∈ w.finished →
      ∃ a inc, a.id = inc.id ∧
        p = NewBidiPipe a inc (mkPipeName inc.id a.sessionID inc.sessionID) ∧
        (inc, ch, p) ∈ w.connects

theorem reach_inv {w : World} (hw : Reach w) : Inv w := by
  induction hw with
  | init =>
    constructor <;> simp [World.init, entries, newSessionState]
  | @step wa wb hr hs ih =>
    clear hr
    obtain ⟨mapWF, keysND, chsND, callsLt, finLt, connLt, connNIM, connND,
      okConn⟩ := ih
    cases hs with
    | register s1 =>
      refine ⟨?_, ?_, ?_, ?_, ?_, ?_, ?_, ?_, ?_⟩ <;>
        simp only [entries_establishRegister]
      · intro e he
        rcases mem_mapInsert he with h | h
        · subst h
          exact ⟨rfl, Nat.lt_succ_self _⟩
        · exact ⟨(mapWF e h).1, Nat.lt_succ_of_lt (mapWF e h).2⟩
      · exact keysNodup_mapInsert keysND
      · exact nodup_map_mapInsert _ chsND
          (fun e he => Nat.ne_of_lt (mapWF e he).2)
      · intro c hc
        rcases List.mem_cons.mp hc with h | h
        · subst h; exact Nat.lt_succ_self _
        · exact Nat.lt_succ_of_lt (callsLt c h)
      · exact fun f hf => Nat.lt_succ_of_lt (finLt f hf)
      · exact fun x hx => Nat.lt_succ_of_lt (connLt x hx)
      · intro x hx e he
        rcases mem_mapInsert he with h | h
        · subst h
          exact (Nat.ne_of_lt (connLt x hx)).symm
        · exact connNIM x hx e h
      · exact connND
      · exact okConn
    | dispatchSent c hc hp hready =>
      refine ⟨mapWF, keysND, chsND, ?_, finLt, connLt, connNIM, connND, okConn⟩
      intro c2 hc2
      rcases List.mem_cons.mp hc2 with h | h
      · subst h; exact callsLt c hc
      · exact callsLt c2 (List.mem_of_mem_erase h)
    | dispatchCancelled c hc hp hready =>
      refine ⟨mapWF, keysND, chsND, ?_, ?_, connLt, connNIM, connND, ?_⟩
      · exact fun c2 hc2 => callsLt c2 (List.mem_of_mem_erase hc2)
      · intro f hf
        rcases List.mem_cons.mp hf with h | h
        · subst h; exact callsLt c hc
        · exact finLt f h
      · intro ch p hf
        rcases List.mem_cons.mp hf with h | h
        · simp at h
        · exact okConn ch p h
    | dispatchPanic c hc hp hready =>
      refine ⟨mapWF, keysND, chsND, ?_, ?_, connLt, connNIM, connND, ?_⟩
      · exact fun c2 hc2 => callsLt c2 (List.mem_of_mem_erase hc2)
      · intro f hf
        rcases List.mem_cons.mp hf with h | h
        · subst h; exact callsLt c hc
        · exact finLt f h
      · intro ch p hf
        rcases List.mem_cons.mp hf with h | h
        · simp at h
        · exact okConn ch p h
    | waitDeadline c hc hp hready =>
      refine ⟨mapWF, keysND, chsND, ?_, ?_, connLt, connNIM, connND, ?_⟩
      · exact fun c2 hc2 => callsLt c2 (List.mem_of_mem_erase hc2)
      · intro f hf
        rcases List.mem_cons.mp hf with h | h
        · subst h; exact callsLt c hc
        · exact finLt f h
      · intro ch p hf
        rcases List.mem_cons.mp hf with h | h
        · simp at h
        · exact okConn ch p h
    | waitCancelled c hc hp hready =>
      refine ⟨mapWF, keysND, chsND, ?_, ?_, connLt, connNIM, connND, ?_⟩
      · exact fun c2 hc2 => callsLt c2 (List.mem_of_mem_erase hc2)
      · intro f hf
        rcases List.mem_cons.mp hf with h | h
        · subst h; exact callsLt c hc
        · exact finLt f h
      · intro ch p hf
        rcases List.mem_cons.mp hf with h | h
        · simp at h
        · exact okConn ch p h
    | connectDeliver incoming ss1 ch p c h hc hch hp =>
      obtain ⟨abp, hl, hss1, hchv, hpv⟩ := OnConnect_delivered_inv h
      rw [lookupAwaiting_eq] at hl
      have habp : (incoming.id, abp) ∈ entries wa.ss := mapLookup_mem hl
      have habpWF := mapWF _ habp
      subst hss1
      refine ⟨?_, ?_, ?_, ?_, ?_, ?_, ?_, ?_, ?_⟩ <;>
        simp only [entries_deleteAwaiting]
      · exact fun e he => mapWF e (mem_mapDelete he)
      · exact keysND.sublist ((mapDelete_sublist _ _).map _)
      · exact chsND.sublist ((mapDelete_sublist _ _).map _)
      · exact fun c2 hc2 => callsLt c2 (List.mem_of_mem_erase hc2)
      · intro f hf
        rcases List.mem_cons.mp hf with hx | hx
        · subst hx
          exact hchv ▸ habpWF.2
        · exact finLt f hx
      · intro x hx
        rcases List.mem_cons.mp hx with hx | hx
        · subst hx
          exact hchv ▸ habpWF.2
        · exact connLt x hx
      · intro x hx e he
        have heE : e ∈ entries wa.ss := mem_mapDelete he
        rcases List.mem_cons.mp hx with hx | hx
        · subst hx
          intro hcontra
          have hne := mapDelete_mem_ne_key keysND e he
          have : e = (incoming.id, abp) :=
            List.inj_on_of_nodup_map chsND heE habp (by
              simpa [hchv] using hcontra)
          subst this
          exact hne rfl
        · exact connNIM x hx e heE
      · simp only [List.map_cons, List.nodup_cons]
        refine ⟨?_, connND⟩
        intro hmem
        rcases List.mem_map.mp hmem with ⟨x, hx, hgx⟩
        exact connNIM x hx (incoming.id, abp) habp (by simp [hchv, hgx])
      · intro ch2 p2 hf
        rcases List.mem_cons.mp hf with hx | hx
        · have h1 : ch2 = ch ∧ EstablishResult.ok p2 = EstablishResult.ok p := by
            exact ⟨congrArg Prod.fst hx, congrArg Prod.snd hx⟩
          have h2 : p2 = p := by
            cases h1.2; rfl
          subst h2
          refine ⟨abp.stream, incoming, ?_, ?_, ?_⟩
          · exact habpWF.1
          · exact hpv
          · rw [h1.1]
            exact List.mem_cons_self _ _
        · obtain ⟨a, inc, h1, h2, h3⟩ := okConn ch2 p2 hx
          exact ⟨a, inc, h1, h2, List.mem_cons_of_mem _ h3⟩
    | connectNoPending incoming h =>
      exact ⟨mapWF, keysND, chsND, callsLt, finLt, connLt, connNIM, connND,
        okConn⟩
    | connectCancelled incoming ss1 p h hd =>
      have hss1 := OnConnect_errCancelled_inv h
      subst hss1
      refine ⟨?_, ?_, ?_, callsLt, finLt, connLt, ?_, connND, okConn⟩ <;>
        simp only [entries_deleteAwaiting]
      · exact fun e he => mapWF e (mem_mapDelete he)
      · exact keysND.sublist ((mapDelete_sublist _ _).map _)
      · exact chsND.sublist ((mapDelete_sublist _ _).map _)
      · exact fun x hx e he => connNIM x hx e (mem_mapDelete he)
    | cancel s1 h =>
      obtain ⟨hdc, hs1⟩ := sessionCancel_ok_inv h
      subst hs1
      exact ⟨mapWF, keysND, chsND, callsLt, finLt, connLt, connNIM, connND,
        okConn⟩

/-- C1: for every call to EstablishBidiPipe that completes by returning an
endpoint (no error), that endpoint is the very same BidiPipe object returned
by the one OnConnect call invoked with a stream of the same ConnID (the pipe
fuses the registered half stream with that incoming stream and is delivered
exactly once on this call's endpoint channel), and at that point the
WaitSlot for that ConnID has been removed from the session's waiting map (no
entry carries this call's endpoint channel any more). -/
theorem C1_endpoint_from_unique_onConnect (w : World) (hw : Reach w)
    (ch : Nat) (p : BidiPipe)
    (hf : (ch, EstablishResult.ok p) ∈ w.finished) :
    (∃ a inc, a.id = inc.id ∧
      p = NewBidiPipe a inc (mkPipeName inc.id a.sessionID inc.sessionID) ∧
      (inc, ch, p) ∈ w.connects) ∧
    (∀ x y, x ∈ w.connects → y ∈ w.connects → x.2.1 = ch → y.2.1 = ch →
      x = y) ∧
    (∀ e ∈ entries w.ss, e.2.bidiPipeCh ≠ ch) := by
  have inv := reach_inv hw
  refine ⟨inv.okConn ch p hf, ?_, ?_⟩
  · intro x y hx hy hxc hyc
    exact List.inj_on_of_nodup_map inv.connChsNodup hx hy (by rw [hxc, hyc])
  · obtain ⟨a, inc, h1, h2, h3⟩ := inv.okConn ch p hf
    intro e he
    exact inv.connNotInMap _ h3 e he

/-- Client half stream of the concrete rendezvous example. -/
def streamC : Stream := ⟨"conn-1", "client-1", 1, 2⟩

/-- Agent half stream of the concrete rendezvous example (same ConnID). -/
def streamA : Stream := ⟨"conn-1", "agent-1", 3, 4⟩

/-- The pipe produced by the example rendezvous. -/
def examplePipe : BidiPipe :=
  NewBidiPipe streamC streamA (mkPipeName "conn-1" "client-1" "agent-1")

/-- World after `EstablishBidiPipe` has registered `streamC`. -/
def exWorld1 : World :=
  { ss := establishRegister (newSessionState 0) streamC 0
    calls := [⟨streamC, 0, Phase.dispatching⟩]
    finished := []
    connects := []
    nextCh := 1 }

/-- World after the DialRequest has been handed to the peer. -/
def exWorld2 : World :=
  { exWorld1 with calls := [⟨streamC, 0, Phase.waiting⟩] }

/-- World after `OnConnect(streamA)` delivered the pipe and the
`EstablishBidiPipe` call returned it. -/
def exampleWorld : World :=
  { ss := { doneFired := false
            dialsClosed := false
            lastMarked := 0
            awaitingBidiPipeMap := some [] }
    calls := []
    finished := [(0, EstablishResult.ok examplePipe)]
    connects := [(streamA, 0, examplePipe)]
    nextCh := 1 }

theorem exStep01 : Step World.init exWorld1 :=
  Step.register World.init streamC

theorem exStep12 : Step exWorld1 exWorld2 :=
  Step.dispatchSent exWorld1 ⟨streamC, 0, Phase.dispatching⟩ (by decide) rfl
    (by decide)

theorem exStep23 : Step exWorld2 exampleWorld :=
  Step.connectDeliver exWorld2 streamA
    { doneFired := false
      dialsClosed := false
      lastMarked := 0
      awaitingBidiPipeMap := some [] }
    0 examplePipe ⟨streamC, 0, Phase.waiting⟩ (by decide) (by decide) rfl rfl

theorem exampleWorld_reach : Reach exampleWorld :=
  Reach.step (Reach.step (Reach.step Reach.init exStep01) exStep12) exStep23

/-- C1 witness: the concrete happy rendezvous — register `streamC`, dispatch
the DialRequest, `OnConnect(streamA)` — satisfies the hypotheses and the
conclusion of the C1 theorem. -/
theorem C1_endpoint_from_unique_onConnect_witness :
    ((0, EstablishResult.ok examplePipe) ∈ exampleWorld.finished) ∧
    ((∃ a inc, a.id = inc.id ∧
        examplePipe
          = NewBidiPipe a inc (mkPipeName inc.id a.sessionID inc.sessionID) ∧
        (inc, 0, examplePipe) ∈ exampleWorld.connects) ∧
      (∀ x y, x ∈ exampleWorld.connects → y ∈ exampleWorld.connects →
        x.2.1 = 0 → y.2.1 = 0 → x = y) ∧
      (∀ e ∈ entries exampleWorld.ss, e.2.bidiPipeCh ≠ 0)) :=
  ⟨by decide,
    C1_endpoint_from_unique_onConnect exampleWorld exampleWorld_reach 0
      examplePipe (by decide)⟩

/-- First registrant of ConnID `0x22` in the duplicate-register scenario. -/
def streamTwo1 : Stream := ⟨"0x22", "client-1", 1, 2⟩

/-- Second registrant of the same ConnID `0x22` (same session). -/
def streamTwo2 : Stream := ⟨"0x22", "client-1", 5, 6⟩

/-- Session state holding the first registration for `0x22`. -/
def ssWithTwo1 : sessionState :=
  establishRegister (newSessionState 0) streamTwo1 0

/-- C2 counterexample: registering ConnID `0x22` a second time does not
leave the first registration's WaitSlot unchanged in the map — the code has
no presence check and `ss.awaitingBidiPipeMap[id] = abp` overwrites the
first slot with the second (and nothing fails with AlreadyExists). -/
theorem C2_counterexample :
    lookupAwaiting (establishRegister ssWithTwo1 streamTwo2 1) "0x22"
        ≠ some ⟨streamTwo1, 0⟩ ∧
    lookupAwaiting (establishRegister ssWithTwo1 streamTwo2 1) "0x22"
        = some ⟨streamTwo2, 1⟩ := by decide

/-- C2 amended: when the session's waiting map already contains an entry for
the stream's ConnID, EstablishBidiPipe does not fail — the registration step
(lines 59-65) unconditionally stores the new WaitSlot, replacing the
existing one. -/
theorem C2_duplicate_register_replaces (ss : sessionState) (stream : Stream)
    (ch : Nat) (abp0 : awaitingBidiPipe)
    (_h : lookupAwaiting ss stream.id = some abp0) :
    lookupAwaiting (establishRegister ss stream ch) stream.id
      = some ⟨stream, ch⟩ :=
  lookupAwaiting_establishRegister ss stream ch

/-- C2 witness: the duplicate-register scenario instantiated. -/
theorem C2_duplicate_register_replaces_witness :
    (lookupAwaiting ssWithTwo1 streamTwo2.id = some ⟨streamTwo1, 0⟩) ∧
    lookupAwaiting (establishRegister ssWithTwo1 streamTwo2 1) streamTwo2.id
      = some ⟨streamTwo2, 1⟩ :=
  ⟨by decide,
    C2_duplicate_register_replaces ssWithTwo1 streamTwo2 1 ⟨streamTwo1, 0⟩
      (by decide)⟩

/-- The client stream of spec scenario 2 (dial timeout on ConnID `0xCD`). -/
def streamCD : Stream := ⟨"0xCD", "client-1", 0, 100⟩

/-- C3 counterexample: an `EstablishBidiPipe` call on ConnID `0xCD` that
takes the deadline exit returns DeadlineExceeded with its WaitSlot still
present in the waiting map — no error exit of the function deletes the
entry (the deadline branch is ready because the window elapsed). -/
theorem C3_counterexample :
    (EstablishBidiPipeRun (newSessionState 0) streamCD 0 DispatchOutcome.sent
        EstablishOutcome.deadlineErr).2 = EstablishResult.errDeadline ∧
    EstablishOutcome.deadlineErr ∈
      waitOutcomes true false (establishRegister (newSessionState 0) streamCD 0)
        none ∧
    lookupAwaiting (EstablishBidiPipeRun (newSessionState 0) streamCD 0
        DispatchOutcome.sent EstablishOutcome.deadlineErr).1 "0xCD"
      = some ⟨streamCD, 0⟩ := by decide

/-- C3 amended: on every exit of `EstablishBidiPipe` — the error exits
included — the registered WaitSlot is still in the session's waiting map
when the call returns: the function performs no deletion on any path; the
only removal in the file is the one inside `OnConnect`. -/
theorem C3_error_exit_keeps_slot (ss : sessionState) (stream : Stream)
    (ch : Nat) (d : DispatchOutcome) (w : EstablishOutcome) :
    (EstablishBidiPipeRun ss stream ch d w).1 = establishRegister ss stream ch ∧
    lookupAwaiting (EstablishBidiPipeRun ss stream ch d w).1 stream.id
      = some ⟨stream, ch⟩ := by
  have h1 : (EstablishBidiPipeRun ss stream ch d w).1
      = establishRegister ss stream ch := by
    cases d <;> cases w <;> rfl
  refine ⟨h1, ?_⟩
  rw [h1]
  exact lookupAwaiting_establishRegister ss stream ch

/-- C4 counterexample: the second `Cancel` of a session is not a no-op — it
panics on `close(ss.dials)` because the channel is already closed. -/
theorem C4_counterexample :
    sessionCancel (newSessionState 0)
        = CancelResult.ok
            { doneFired := true, dialsClosed := true, lastMarked := 0,
              awaitingBidiPipeMap := none } ∧
    sessionCancel
        { doneFired := true, dialsClosed := true, lastMarked := 0,
          awaitingBidiPipeMap := none }
      = CancelResult.panicked
          { doneFired := true, dialsClosed := true, lastMarked := 0,
            awaitingBidiPipeMap := none } := by decide

/-- C4 amended: `Cancel` is safe to call exactly once.  The done-signal
firing is idempotent, but the channel closes are not: a second
`sessionState.Cancel` panics on the already-closed `dials` channel, and a
second `agentSessionState.Cancel` panics on the already-closed
`dnsRequests` channel. -/
theorem C4_second_cancel_panics (ss : sessionState) (ag : agentSessionState)
    (h1 : ss.dialsClosed = false) (h2 : ag.dnsRequestsClosed = false)
    (h3 : ag.session.dialsClosed = false) :
    (∃ s1, sessionCancel ss = CancelResult.ok s1 ∧
      sessionCancel s1 = CancelResult.panicked s1) ∧
    (∃ ag1, agentSessionCancel ag = AgentCancelResult.ok ag1 ∧
      agentSessionCancel ag1 = AgentCancelResult.panicked) := by
  constructor
  · refine ⟨{ ss with doneFired := true, dialsClosed := true }, ?_, ?_⟩
    · simp [sessionCancel, h1]
    · simp [sessionCancel]
  · refine ⟨⟨{ ag.session with doneFired := true, dialsClosed := true },
        true, []⟩, ?_, ?_⟩
    · simp [agentSessionCancel, h2, sessionCancel, h3]
    · simp [agentSessionCancel]

/-- C4 witness: a fresh client session and a fresh agent session. -/
theorem C4_second_cancel_panics_witness :
    ((newSessionState 0).dialsClosed = false ∧
      (newAgentSessionState 0).dnsRequestsClosed = false ∧
      (newAgentSessionState 0).session.dialsClosed = false) ∧
    ((∃ s1, sessionCancel (newSessionState 0) = CancelResult.ok s1 ∧
        sessionCancel s1 = CancelResult.panicked s1) ∧
      (∃ ag1, agentSessionCancel (newAgentSessionState 0)
            = AgentCancelResult.ok ag1 ∧
        agentSessionCancel ag1 = AgentCancelResult.panicked)) :=
  ⟨⟨rfl, rfl, rfl⟩,
    C4_second_cancel_panics (newSessionState 0) (newAgentSessionState 0)
      rfl rfl rfl⟩

/-- C5 counterexample: cancelling a session whose waiting map holds an entry
leaves that entry in the map — `sessionState.Cancel` only fires the
done-signal and closes `dials`; the waiting map is not emptied. -/
theorem C5_counterexample :
    sessionCancel ssWithTwo1
        = CancelResult.ok
            { doneFired := true, dialsClosed := true, lastMarked := 0,
              awaitingBidiPipeMap := some [("0x22", ⟨streamTwo1, 0⟩)] } ∧
    entries
        { doneFired := true, dialsClosed := true, lastMarked := 0,
          awaitingBidiPipeMap := some [("0x22", ⟨streamTwo1, 0⟩)] }
      ≠ [] := by decide

/-- C5 amended: after `Cancel` returns, the waiting map is exactly what it
was before the call — `Cancel` posts nothing to the waiters; it fires the
done-signal and closes the dial queue, and a pending `EstablishBidiPipe`
waiter then observes the done-signal through its own select and returns a
Cancelled error itself. -/
theorem C5_cancel_leaves_map (ss : sessionState)
    (h : ss.dialsClosed = false) :
    ∃ s1, sessionCancel ss = CancelResult.ok s1 ∧
      s1.awaitingBidiPipeMap = ss.awaitingBidiPipeMap ∧
      s1.doneFired = true ∧ s1.dialsClosed = true ∧
      EstablishOutcome.cancelledErr ∈ waitOutcomes false false s1 none := by
  refine ⟨{ ss with doneFired := true, dialsClosed := true }, ?_, rfl, rfl,
    rfl, ?_⟩
  · simp [sessionCancel, h]
  · simp [waitOutcomes]

/-- C5 witness: the session holding the `0x22` registration. -/
theorem C5_cancel_leaves_map_witness :
    (ssWithTwo1.dialsClosed = false) ∧
    (∃ s1, sessionCancel ssWithTwo1 = CancelResult.ok s1 ∧
      s1.awaitingBidiPipeMap = ssWithTwo1.awaitingBidiPipeMap ∧
      s1.doneFired = true ∧ s1.dialsClosed = true ∧
      EstablishOutcome.cancelledErr ∈ waitOutcomes false false s1 none) :=
  ⟨by decide, C5_cancel_leaves_map ssWithTwo1 (by decide)⟩

/-- C6 counterexample: before the `dial-timeout + roundtrip-latency` window
has elapsed (`deadlineReached = false`), with the session not cancelled and
no endpoint delivered, the wait select can still — in fact, can only —
return DeadlineExceeded when the caller's request context is cancelled: the
`ctx.Done()` branch of line 92 conflates the timeout with parent-context
cancellation. -/
theorem C6_counterexample :
    EstablishOutcome.deadlineErr
        ∈ waitOutcomes false true (newSessionState 0) none ∧
    waitOutcomes false true (newSessionState 0) none
        = [EstablishOutcome.deadlineErr] := by decide

/-- C6 amended: the rendezvous deadline is `dial-timeout +
roundtrip-latency`, both taken from the half stream; once that window
elapses with no endpoint delivered and the session not cancelled, the call
can only return DeadlineExceeded; before the window elapses, DeadlineExceeded
is impossible unless the caller's request context is cancelled (which the
code reports as DeadlineExceeded through the same `ctx.Done()` branch). -/
theorem C6_deadline_semantics (stream : Stream) (ss : sessionState)
    (pc : Bool) (delivery : Option BidiPipe) :
    establishDeadline stream = stream.dialTimeout + stream.roundtripLatency ∧
    waitOutcomes true pc { ss with doneFired := false } none
        = [EstablishOutcome.deadlineErr] ∧
    EstablishOutcome.deadlineErr ∉ waitOutcomes false false ss delivery := by
  refine ⟨rfl, by simp [waitOutcomes], ?_⟩
  cases delivery <;> by_cases h : ss.doneFired <;> simp [waitOutcomes, h]

/-- The spontaneous agent stream of spec scenario 4 (ConnID `0x11`,
never registered). -/
def streamOrphan : Stream := ⟨"0x11", "agent-1", 0, 0⟩

/-- C7: when the session's waiting map has no entry for the incoming
stream's ConnID, `OnConnect` returns a nil endpoint and a nil error
(`noPending`), constructs no BidiPipe, and leaves the session state — the
waiting map included — untouched. -/
theorem C7_onConnect_orphan (ss : sessionState) (stream : Stream) (b : Bool)
    (h : lookupAwaiting ss stream.id = none) :
    OnConnect ss stream b = (ss, OnConnectResult.noPending) := by
  unfold OnConnect
  rw [h]

/-- C7 witness: the orphan `OnConnect` for ConnID `0x11` on a fresh
session. -/
theorem C7_onConnect_orphan_witness :
    (lookupAwaiting (newSessionState 0) streamOrphan.id = none) ∧
    OnConnect (newSessionState 0) streamOrphan false
      = (newSessionState 0, OnConnectResult.noPending) :=
  ⟨by decide,
    C7_onConnect_orphan (newSessionState 0) streamOrphan false (by decide)⟩

/-- A session on which `Cancel` has completed. -/
def ssCancelled : sessionState :=
  { doneFired := true, dialsClosed := true, lastMarked := 0,
    awaitingBidiPipeMap := none }

/-- C8 counterexample: on a cancelled session (this is exactly the state
`Cancel` leaves behind), the dispatch select of `EstablishBidiPipe` does not
always fail with Cancelled: the send branch on the closed `dials` channel is
also ready, and selecting it is a run-time panic. -/
theorem C8_counterexample :
    sessionCancel (newSessionState 0) = CancelResult.ok ssCancelled ∧
    DispatchOutcome.panicked ∈ dispatchOutcomes ssCancelled false ∧
    ¬ (∀ o ∈ dispatchOutcomes ssCancelled false,
        o = DispatchOutcome.cancelledErr) := by decide

/-- C8 amended: a dispatch attempted on a cancelled session never blocks —
the select immediately has ready branches — but its outcome is one of
exactly two possibilities: the done branch fails with a Cancelled error, or
the send branch on the `dials` channel (closed by `Cancel`) panics; Go picks
between the two ready branches nondeterministically. -/
theorem C8_dispatch_after_cancel (ss : sessionState) (r : Bool)
    (h1 : ss.doneFired = true) (h2 : ss.dialsClosed = true) :
    dispatchOutcomes ss r
      = [DispatchOutcome.cancelledErr, DispatchOutcome.panicked] := by
  simp [dispatchOutcomes, h1, h2]

/-- C8 witness: the state left behind by cancelling a fresh session. -/
theorem C8_dispatch_after_cancel_witness :
    (ssCancelled.doneFired = true ∧ ssCancelled.dialsClosed = true) ∧
    dispatchOutcomes ssCancelled false
      = [DispatchOutcome.cancelledErr, DispatchOutcome.panicked] :=
  ⟨⟨rfl, rfl⟩, C8_dispatch_after_cancel ssCancelled false rfl rfl⟩

/-- Agent session with one pending DNS response channel (request id r1). -/
def agPending : agentSessionState :=
  { session := newSessionState 0
    dnsRequestsClosed := false
    dnsResponses := ["r1"] }

/-- C9 counterexample: in `agentSessionState.Cancel` the DNS request queue
is closed FIRST (line 222), before the pending response channels
(lines 223-226) — the pending response channel for r1 is not closed
strictly before the request queue. -/
theorem C9_counterexample :
    agentCancelTrace agPending
        = [CancelEvent.closeDnsRequests, CancelEvent.closeDnsResponse "r1",
            CancelEvent.fireDone, CancelEvent.closeDials] ∧
    ¬ ((agentCancelTrace agPending).indexOf (CancelEvent.closeDnsResponse "r1")
        < (agentCancelTrace agPending).indexOf CancelEvent.closeDnsRequests)
    := by decide

/-- C9 amended: when an agent session is cancelled, the DNS request queue is
closed first; every pending DNS response channel is closed (and removed from
the correlation map) strictly AFTER the request queue close, and the
embedded session cancel (done-signal, dials close) comes last. -/
theorem C9_requests_closed_first (ag : agentSessionState) (k : String)
    (h : k ∈ ag.dnsResponses) :
    (agentCancelTrace ag).indexOf CancelEvent.closeDnsRequests = 0 ∧
    0 < (agentCancelTrace ag).indexOf (CancelEvent.closeDnsResponse k) ∧
    CancelEvent.closeDnsResponse k ∈ agentCancelTrace ag ∧
    (∀ ag1, agentSessionCancel ag = AgentCancelResult.ok ag1 →
      ag1.dnsResponses = [] ∧ ag1.dnsRequestsClosed = true) := by
  refine ⟨?_, ?_, ?_, ?_⟩
  · simp [agentCancelTrace]
  · rw [agentCancelTrace, List.indexOf_cons_ne]
    · exact Nat.succ_pos _
    · simp
  · exact List.mem_cons_of_mem _
      (List.mem_append_left _ (List.mem_map.mpr ⟨k, h, rfl⟩))
  · intro ag1 hok
    unfold agentSessionCancel at hok
    by_cases hc : ag.dnsRequestsClosed
    · simp [hc] at hok
    · simp only [hc, if_neg, Bool.false_eq_true, ite_false] at hok
      cases hm : sessionCancel
          { ag with dnsRequestsClosed := true, dnsResponses := [] }.session
        with
      | ok s =>
        rw [hm] at hok
        simp at hok
        subst hok
        exact ⟨rfl, rfl⟩
      | panicked s =>
        rw [hm] at hok
        simp at hok

/-- C9 witness: the agent session with the pending r1 response channel. -/
theorem C9_requests_closed_first_witness :
    ("r1" ∈ agPending.dnsResponses) ∧
    ((agentCancelTrace agPending).indexOf CancelEvent.closeDnsRequests = 0 ∧
      0 < (agentCancelTrace agPending).indexOf
          (CancelEvent.closeDnsResponse "r1") ∧
      CancelEvent.closeDnsResponse "r1" ∈ agentCancelTrace agPending ∧
      (∀ ag1, agentSessionCancel agPending = AgentCancelResult.ok ag1 →
        ag1.dnsResponses = [] ∧ ag1.dnsRequestsClosed = true)) :=
  ⟨by decide, C9_requests_closed_first agPending "r1" (by decide)⟩

/-- C10: `AwaitingBidiMapOwnerSessionID` returns the session ID of the
stream stored in the waiting map under the incoming stream's ConnID when an
entry exists, the empty string when none does, and in both cases leaves the
session state (its waiting map included) unchanged. -/
theorem C10_awaitingOwner (ss : sessionState) (stream : Stream) :
    (AwaitingBidiMapOwnerSessionID ss stream).1 = ss ∧
    (∀ abp, lookupAwaiting ss stream.id = some abp →
      (AwaitingBidiMapOwnerSessionID ss stream).2 = abp.stream.sessionID) ∧
    (lookupAwaiting ss stream.id = none →
      (AwaitingBidiMapOwnerSessionID ss stream).2 = "") := by
  unfold AwaitingBidiMapOwnerSessionID
  cases h : lookupAwaiting ss stream.id with
  | none => simp
  | some abp => simp

/-- C10 witness: the session holding the `0x22` registration (entry
present), and projection of the empty-map case through the same theorem. -/
theorem C10_awaitingOwner_witness :
    (AwaitingBidiMapOwnerSessionID ssWithTwo1 streamTwo1).1 = ssWithTwo1 ∧
    (AwaitingBidiMapOwnerSessionID ssWithTwo1 streamTwo1).2 = "client-1" ∧
    (AwaitingBidiMapOwnerSessionID (newSessionState 0) streamOrphan).2 = "" :=
  ⟨(C10_awaitingOwner ssWithTwo1 streamTwo1).1,
    (C10_awaitingOwner ssWithTwo1 streamTwo1).2.1 ⟨streamTwo1, 0⟩ (by decide),
    (C10_awaitingOwner (newSessionState 0) streamOrphan).2.2 (by decide)⟩

end Telepresence
